import Mathlib

/-!
Verification of the DroidLM trainable models.

Shallow embedding of `src/droid_lm/ml_training/trainable_model_gen.py`
(the windowed `TrainableModel`: a 102→64→64→32→2 feed-forward net with
ReLU hidden activations, sigmoid output, MSE loss and a hand-rolled SGD
step) and of `src/droid_lm/ml_training/behavior_model.py`
(`create_behavior_model`: a 10-feature multi-head classifier).

Tensors are modelled as `List ℝ` (vectors) and `List (List ℝ)` (matrices,
row-major: a weight matrix of shape [in_dim, out_dim] is a list of in_dim
rows of length out_dim, exactly the TensorFlow layout `x·W + b`).
-/

namespace DroidLM

/-! ### Vector and matrix primitives -/

/-- The all-zero vector of length `n`. -/
def zeroVec (n : Nat) : List ℝ := List.replicate n 0

/-- The all-zero matrix with `r` rows and `c` columns. -/
def zeroMat (r c : Nat) : List (List ℝ) := List.replicate r (zeroVec c)

/-- Pointwise vector addition (truncating to the shorter operand). -/
def vecAdd (u v : List ℝ) : List ℝ := List.zipWith (· + ·) u v

/-- Pointwise vector subtraction. -/
def vecSub (u v : List ℝ) : List ℝ := List.zipWith (· - ·) u v

/-- Scale a vector by a scalar. -/
def vecScale (c : ℝ) (v : List ℝ) : List ℝ := v.map (fun a => c * a)

/-- Pointwise matrix addition. -/
def matAdd (A B : List (List ℝ)) : List (List ℝ) := List.zipWith vecAdd A B

/-- Pointwise matrix subtraction. -/
def matSub (A B : List (List ℝ)) : List (List ℝ) := List.zipWith vecSub A B

/-- Scale a matrix by a scalar. -/
def matScale (c : ℝ) (A : List (List ℝ)) : List (List ℝ) := A.map (vecScale c)

/-- Pointwise (Hadamard) matrix product. -/
def hadamard (A B : List (List ℝ)) : List (List ℝ) :=
  List.zipWith (fun u v => List.zipWith (· * ·) u v) A B

/-- Dot product of two vectors. -/
def dot (u v : List ℝ) : ℝ := (List.zipWith (· * ·) u v).sum

/-- Row-vector × matrix product `row · W` where `W` has declared output
width `w` (the TensorFlow `tf.matmul` on one batch row): the sum over `i`
of `row[i] * W[i]`. -/
def rowMat (w : Nat) (row : List ℝ) (W : List (List ℝ)) : List ℝ :=
  (List.zipWith vecScale row W).foldr vecAdd (zeroVec w)

/-- One dense affine transform on one batch row: `row · W + b`
(`tf.matmul(x, W) + b`), `w` the declared layer width. -/
def denseRow (w : Nat) (W : List (List ℝ)) (b : List ℝ) (row : List ℝ) : List ℝ :=
  vecAdd (rowMat w row W) b

/-- Outer product `u ⊗ v` (an `u.length × v.length` matrix). -/
def outer (u v : List ℝ) : List (List ℝ) := u.map (fun a => vecScale a v)

/-- `Aᵀ · B` for batch-major `A`, `B` (rows indexed by batch), with the
declared result shape `r × c`: the sum over the batch of outer products of
corresponding rows.  A batch of size zero yields the zero matrix. -/
def gramT (r c : Nat) (A B : List (List ℝ)) : List (List ℝ) :=
  (List.zipWith outer A B).foldr matAdd (zeroMat r c)

/-- Column sums of a batch-major matrix with declared width `w`
(`tf.reduce_sum` over the batch axis, the bias-gradient reduction). -/
def colSum (w : Nat) (A : List (List ℝ)) : List ℝ :=
  A.foldr vecAdd (zeroVec w)

/-- `W · d` viewed per row: for a batch row `d`, the vector whose `i`-th
entry is `dot d W[i]` — this is `d · Wᵀ`. -/
def matVec (W : List (List ℝ)) (d : List ℝ) : List ℝ :=
  W.map (fun wrow => dot d wrow)

/-! ### Activations, from `tf.nn.relu` and `tf.nn.sigmoid` -/

/-- `tf.nn.relu`. -/
noncomputable def reluR (a : ℝ) : ℝ := max a 0

/-- Derivative of ReLU as TensorFlow autodiff computes it: `1` where the
pre-activation is strictly positive, `0` otherwise (including at `0`). -/
noncomputable def reluDeriv (a : ℝ) : ℝ := if 0 < a then 1 else 0

/-- `tf.nn.sigmoid`. -/
noncomputable def sigmoidR (a : ℝ) : ℝ := 1 / (1 + Real.exp (-a))

/-! ### The windowed TrainableModel (`trainable_model_gen.py`) -/

/-- Architecture constants of `trainable_model_gen.py`. -/
def FEATURE_DIM : Nat := 34

def WINDOW_SIZE : Nat := 3

def INPUT_DIM : Nat := FEATURE_DIM * WINDOW_SIZE

def OUTPUT_DIM : Nat := 2

/-- The error kinds of the spec's error-handling design (§7). -/
inductive TrainError where
  | shapeError
  | invalidInputError
  | computeError
deriving DecidableEq, Repr

/-- `train`'s returned dictionary `{"loss": ..., "prediction": ...}`. -/
structure TrainingStepResult where
  loss : ℝ
  prediction : List (List ℝ)

/-- The `tf.function` input-signature check on one tensor argument: every
batch row must have the declared feature dimension `d` (the batch axis is
`None`, i.e. unconstrained). -/
def sigOk (d : Nat) (m : List (List ℝ)) : Bool := m.all (fun r => r.length == d)

/-- One row of squared errors `(y − prediction)²` (`tf.square(y - prediction)`). -/
def sqErrRow (yr pr : List ℝ) : List ℝ := List.zipWith (fun a b => (a - b) ^ 2) yr pr

/-- `tf.reduce_mean(tf.square(y - prediction))`: the sum of all entries of
the squared-error tensor divided by the number of entries. -/
noncomputable def mseLoss (y pred : List (List ℝ)) : ℝ :=
  let entries := (List.zipWith sqErrRow y pred).flatten
  entries.sum / entries.length

/-- The ParameterSet of the windowed `TrainableModel`: the eight tensors
created in `TrainableModel.__init__` (shapes [102,64],[64],[64,64],[64],
[64,32],[32],[32,2],[2]). -/
structure TrainableModel where
  w1 : List (List ℝ)
  b1 : List ℝ
  w2 : List (List ℝ)
  b2 : List ℝ
  w3 : List (List ℝ)
  b3 : List ℝ
  w4 : List (List ℝ)
  b4 : List ℝ

namespace TrainableModel

/-- `self.learning_rate = 0.01` from `__init__`. -/
def learning_rate : ℝ := 0.01

/-- Shape well-formedness of the ParameterSet: exactly the shapes
`__init__` creates.  Random weight values are left abstract (the Gaussian
draw is not modelled); zero-bias initialisation is hypothesised where a
claim needs it. -/
def wf (p : TrainableModel) : Bool :=
  (p.w1.length == 102) && p.w1.all (fun r => r.length == 64) && (p.b1.length == 64) &&
  (p.w2.length == 64) && p.w2.all (fun r => r.length == 64) && (p.b2.length == 64) &&
  (p.w3.length == 64) && p.w3.all (fun r => r.length == 32) && (p.b3.length == 32) &&
  (p.w4.length == 32) && p.w4.all (fun r => r.length == 2) && (p.b4.length == 2)

/-- `TrainableModel.__call__` on one batch row: three dense+ReLU layers,
a final dense layer, then sigmoid. -/
noncomputable def callRow (p : TrainableModel) (row : List ℝ) : List ℝ :=
  let h1 := (denseRow 64 p.w1 p.b1 row).map reluR
  let h2 := (denseRow 64 p.w2 p.b2 h1).map reluR
  let h3 := (denseRow 32 p.w3 p.b3 h2).map reluR
  (denseRow 2 p.w4 p.b4 h3).map sigmoidR

/-- `TrainableModel.__call__` on a batch (the Forward Evaluator). -/
noncomputable def call (p : TrainableModel) (x : List (List ℝ)) : List (List ℝ) :=
  x.map (callRow p)

/-- The gradient of the MSE loss with respect to every ParameterSet tensor,
at the current parameters, as `tf.GradientTape.gradient` computes it:
reverse-mode differentiation through the four dense layers, with
`reluDeriv` for ReLU and `s·(1−s)` for sigmoid.  For a batch of size zero
every gradient is the zero tensor of the parameter's shape (TensorFlow
produces zero gradients there, since the backward matmuls are over an
empty batch axis). -/
noncomputable def gradLoss (p : TrainableModel) (x y : List (List ℝ)) : TrainableModel :=
  let z1 := x.map (denseRow 64 p.w1 p.b1)
  let h1 := z1.map (fun r => r.map reluR)
  let z2 := h1.map (denseRow 64 p.w2 p.b2)
  let h2 := z2.map (fun r => r.map reluR)
  let z3 := h2.map (denseRow 32 p.w3 p.b3)
  let h3 := z3.map (fun r => r.map reluR)
  let z4 := h3.map (denseRow 2 p.w4 p.b4)
  let pred := z4.map (fun r => r.map sigmoidR)
  let n : ℝ := ((List.zipWith sqErrRow y pred).flatten).length
  let dpred := matScale (2 / n) (matSub pred y)
  let dz4 := hadamard dpred (pred.map (fun r => r.map (fun s => s * (1 - s))))
  let dh3 := dz4.map (matVec p.w4)
  let dz3 := hadamard dh3 (z3.map (fun r => r.map reluDeriv))
  let dh2 := dz3.map (matVec p.w3)
  let dz2 := hadamard dh2 (z2.map (fun r => r.map reluDeriv))
  let dh1 := dz2.map (matVec p.w2)
  let dz1 := hadamard dh1 (z1.map (fun r => r.map reluDeriv))
  { w1 := gramT 102 64 x dz1, b1 := colSum 64 dz1
    w2 := gramT 64 64 h1 dz2, b2 := colSum 64 dz2
    w3 := gramT 64 32 h2 dz3, b3 := colSum 32 dz3
    w4 := gramT 32 2 h3 dz4, b4 := colSum 2 dz4 }

/-- The manual SGD loop of `train`: for every (var, grad) pair,
`var.assign_sub(grad * self.learning_rate)`. -/
noncomputable def applyUpdate (lr : ℝ) (p g : TrainableModel) : TrainableModel :=
  { w1 := matSub p.w1 (matScale lr g.w1), b1 := vecSub p.b1 (vecScale lr g.b1)
    w2 := matSub p.w2 (matScale lr g.w2), b2 := vecSub p.b2 (vecScale lr g.b2)
    w3 := matSub p.w3 (matScale lr g.w3), b3 := vecSub p.b3 (vecScale lr g.b3)
    w4 := matSub p.w4 (matScale lr g.w4), b4 := vecSub p.b4 (vecScale lr g.b4) }

/-- `TrainableModel.train`, state-passing: the pair of the call's outcome
and the ParameterSet after the call.  The input signature
`[None,102] × [None,2]` (and batch alignment of `y` against the
prediction) is enforced before the body runs; a violation raises and
leaves the parameters untouched.  The body computes the prediction and
MSE loss under the tape, takes gradients, and applies the SGD update
once; the returned loss/prediction are the ones computed before the
update.  There is no batch-size-0 check. -/
noncomputable def train (p : TrainableModel) (x y : List (List ℝ)) :
    Except TrainError TrainingStepResult × TrainableModel :=
  if sigOk 102 x && sigOk 2 y && (x.length == y.length) then
    let pred := call p x
    let loss := mseLoss y pred
    let g := gradLoss p x y
    (Except.ok { loss := loss, prediction := pred }, applyUpdate learning_rate p g)
  else
    (Except.error TrainError.shapeError, p)

/-- `TrainableModel.infer`, state-passing: signature check `[None,102]`,
then the forward pass only. -/
noncomputable def infer (p : TrainableModel) (x : List (List ℝ)) :
    Except TrainError (List (List ℝ)) × TrainableModel :=
  if sigOk 102 x then (Except.ok (call p x), p)
  else (Except.error TrainError.shapeError, p)

/-- A named tensor as `save` returns it: either a bias vector or a weight
matrix. -/
inductive Tensor where
  | vec (v : List ℝ)
  | mat (m : List (List ℝ))

/-- Shape of a saved tensor: `[n]` for a vector, `[r, c]` for a matrix all
of whose rows have length `c`. -/
def Tensor.hasShape : Tensor → List Nat → Prop
  | .vec v, [n] => v.length = n
  | .mat m, [r, c] => m.length = r ∧ ∀ row ∈ m, row.length = c
  | _, _ => False

/-- `TrainableModel.save`: the flat name → tensor mapping of the current
ParameterSet, in the order written in the source. -/
def save (p : TrainableModel) : List (String × Tensor) :=
  [("w1", .mat p.w1), ("b1", .vec p.b1),
   ("w2", .mat p.w2), ("b2", .vec p.b2),
   ("w3", .mat p.w3), ("b3", .vec p.b3),
   ("w4", .mat p.w4), ("b4", .vec p.b4)]

/-- The ParameterSet after a sequence of `train` calls (each call advances
the state by its returned post-state). -/
noncomputable def trainSeq (p : TrainableModel)
    (calls : List (List (List ℝ) × List (List ℝ))) : TrainableModel :=
  calls.foldl (fun q xy => (train q xy.1 xy.2).2) p

end TrainableModel

/-! ### The single-day trainable variant

The repository's single-day trainable-model file is not under `src/`
(only the windowed `trainable_model_gen.py` is); the spec describes it as
a near-duplicate of the windowed variant with 3 layers 10→32→16→1. -/

/-- Modelled from the spec: the ParameterSet of the single-day trainable
variant (the trainable-model file absent from `src/`), "3 layers for the
single-day variant: 10→32→16→1" with the same design as the windowed
variant (Gaussian weight initialisation, zero biases, ReLU hidden layers,
sigmoid output, MSE loss, SGD with learning rate 0.01). -/
structure SingleDayModel where
  w1 : List (List ℝ)
  b1 : List ℝ
  w2 : List (List ℝ)
  b2 : List ℝ
  w3 : List (List ℝ)
  b3 : List ℝ

namespace SingleDayModel

/-- Modelled from the spec: fixed learning rate 0.01 (§4.4). -/
def learning_rate : ℝ := 0.01

/-- Shape well-formedness of the single-day ParameterSet (10→32→16→1). -/
def wf (p : SingleDayModel) : Bool :=
  (p.w1.length == 10) && p.w1.all (fun r => r.length == 32) && (p.b1.length == 32) &&
  (p.w2.length == 32) && p.w2.all (fun r => r.length == 16) && (p.b2.length == 16) &&
  (p.w3.length == 16) && p.w3.all (fun r => r.length == 1) && (p.b3.length == 1)

/-- Modelled from the spec: the single-day Forward Evaluator on one row —
"alternating affine transform (x·W + b) and ReLU activation for every
layer except the last, and a final affine transform followed by a sigmoid
activation" (§4.2), over the 10→32→16→1 chain. -/
noncomputable def callRow (p : SingleDayModel) (row : List ℝ) : List ℝ :=
  let h1 := (denseRow 32 p.w1 p.b1 row).map reluR
  let h2 := (denseRow 16 p.w2 p.b2 h1).map reluR
  (denseRow 1 p.w3 p.b3 h2).map sigmoidR

/-- Modelled from the spec: the single-day Forward Evaluator on a batch. -/
noncomputable def call (p : SingleDayModel) (x : List (List ℝ)) : List (List ℝ) :=
  x.map (callRow p)

/-- Modelled from the spec: the gradient of the MSE loss with respect to
every single-day ParameterSet tensor, by backpropagation through ReLU and
sigmoid (§4.3), mirroring the windowed variant's tape gradient. -/
noncomputable def gradLoss (p : SingleDayModel) (x y : List (List ℝ)) : SingleDayModel :=
  let z1 := x.map (denseRow 32 p.w1 p.b1)
  let h1 := z1.map (fun r => r.map reluR)
  let z2 := h1.map (denseRow 16 p.w2 p.b2)
  let h2 := z2.map (fun r => r.map reluR)
  let z3 := h2.map (denseRow 1 p.w3 p.b3)
  let pred := z3.map (fun r => r.map sigmoidR)
  let n : ℝ := ((List.zipWith sqErrRow y pred).flatten).length
  let dpred := matScale (2 / n) (matSub pred y)
  let dz3 := hadamard dpred (pred.map (fun r => r.map (fun s => s * (1 - s))))
  let dh2 := dz3.map (matVec p.w3)
  let dz2 := hadamard dh2 (z2.map (fun r => r.map reluDeriv))
  let dh1 := dz2.map (matVec p.w2)
  let dz1 := hadamard dh1 (z1.map (fun r => r.map reluDeriv))
  { w1 := gramT 10 32 x dz1, b1 := colSum 32 dz1
    w2 := gramT 32 16 h1 dz2, b2 := colSum 16 dz2
    w3 := gramT 16 1 h2 dz3, b3 := colSum 1 dz3 }

/-- Modelled from the spec: the SGD update `param ← param − 0.01·gradient`
applied to each single-day tensor in place (§4.4). -/
noncomputable def applyUpdate (lr : ℝ) (p g : SingleDayModel) : SingleDayModel :=
  { w1 := matSub p.w1 (matScale lr g.w1), b1 := vecSub p.b1 (vecScale lr g.b1)
    w2 := matSub p.w2 (matScale lr g.w2), b2 := vecSub p.b2 (vecScale lr g.b2)
    w3 := matSub p.w3 (matScale lr g.w3), b3 := vecSub p.b3 (vecScale lr g.b3) }

/-- Modelled from the spec: the single-day `train(x, y)` entry point,
returning the pre-update loss/prediction and the updated ParameterSet
(§4.4, §6), with the `[None,10] × [None,1]` signature check of the
near-duplicate source pattern. -/
noncomputable def train (p : SingleDayModel) (x y : List (List ℝ)) :
    Except TrainError TrainingStepResult × SingleDayModel :=
  if sigOk 10 x && sigOk 1 y && (x.length == y.length) then
    let pred := call p x
    let loss := mseLoss y pred
    let g := gradLoss p x y
    (Except.ok { loss := loss, prediction := pred }, applyUpdate learning_rate p g)
  else
    (Except.error TrainError.shapeError, p)

/-- Modelled from the spec: the single-day `infer(x)` entry point,
read-only (§4.5, §6). -/
noncomputable def infer (p : SingleDayModel) (x : List (List ℝ)) :
    Except TrainError (List (List ℝ)) × SingleDayModel :=
  if sigOk 10 x then (Except.ok (call p x), p)
  else (Except.error TrainError.shapeError, p)

end SingleDayModel

/-! ### The multi-head behavior model (`behavior_model.py`) -/

/-- `softmax` as Keras computes it on one logit vector:
`exp(z_i) / Σ_j exp(z_j)`. -/
noncomputable def softmax (v : List ℝ) : List ℝ :=
  let es := v.map Real.exp
  es.map (fun e => e / es.sum)

/-- The parameter tensors of `create_behavior_model`: encoder Dense layers
`encoder_1` (10→32), `encoder_2` (32→24), `latent_habit_embedding`
(24→16), and the three heads `habit_head` (16→1, sigmoid),
`distraction_head` (16→1, sigmoid), `stability_head` (16→3, softmax).
Keras `Dense` kernels have shape [in_dim, units] and compute `x·W + b`. -/
structure BehaviorModel where
  enc1W : List (List ℝ)
  enc1b : List ℝ
  enc2W : List (List ℝ)
  enc2b : List ℝ
  latW : List (List ℝ)
  latb : List ℝ
  habitW : List (List ℝ)
  habitb : List ℝ
  distW : List (List ℝ)
  distb : List ℝ
  stabW : List (List ℝ)
  stabb : List ℝ

namespace BehaviorModel

/-- Shape well-formedness of the behavior model's tensors. -/
def wf (q : BehaviorModel) : Bool :=
  (q.enc1W.length == 10) && q.enc1W.all (fun r => r.length == 32) && (q.enc1b.length == 32) &&
  (q.enc2W.length == 32) && q.enc2W.all (fun r => r.length == 24) && (q.enc2b.length == 24) &&
  (q.latW.length == 24) && q.latW.all (fun r => r.length == 16) && (q.latb.length == 16) &&
  (q.habitW.length == 16) && q.habitW.all (fun r => r.length == 1) && (q.habitb.length == 1) &&
  (q.distW.length == 16) && q.distW.all (fun r => r.length == 1) && (q.distb.length == 1) &&
  (q.stabW.length == 16) && q.stabW.all (fun r => r.length == 3) && (q.stabb.length == 3)

/-- The forward pass of `create_behavior_model` on one feature row: the
ReLU encoder stack, then the three heads' outputs
(habit sigmoid, distraction sigmoid, stability softmax). -/
noncomputable def forward (q : BehaviorModel) (row : List ℝ) :
    List ℝ × List ℝ × List ℝ :=
  let x1 := (denseRow 32 q.enc1W q.enc1b row).map reluR
  let x2 := (denseRow 24 q.enc2W q.enc2b x1).map reluR
  let lat := (denseRow 16 q.latW q.latb x2).map reluR
  ((denseRow 1 q.habitW q.habitb lat).map sigmoidR,
   (denseRow 1 q.distW q.distb lat).map sigmoidR,
   softmax (denseRow 3 q.stabW q.stabb lat))

end BehaviorModel

/-! ### Concrete all-zero parameter sets (used to evaluate the theorems) -/

/-- A concrete windowed ParameterSet with all-zero tensors of the shapes
`__init__` creates. -/
def zeroModel : TrainableModel :=
  { w1 := zeroMat 102 64, b1 := zeroVec 64
    w2 := zeroMat 64 64, b2 := zeroVec 64
    w3 := zeroMat 64 32, b3 := zeroVec 32
    w4 := zeroMat 32 2, b4 := zeroVec 2 }

/-- A concrete single-day ParameterSet with all-zero tensors. -/
def zeroSD : SingleDayModel :=
  { w1 := zeroMat 10 32, b1 := zeroVec 32
    w2 := zeroMat 32 16, b2 := zeroVec 16
    w3 := zeroMat 16 1, b3 := zeroVec 1 }

/-- A concrete behavior-model parameter set with all-zero tensors. -/
def zeroBehavior : BehaviorModel :=
  { enc1W := zeroMat 10 32, enc1b := zeroVec 32
    enc2W := zeroMat 32 24, enc2b := zeroVec 24
    latW := zeroMat 24 16, latb := zeroVec 16
    habitW := zeroMat 16 1, habitb := zeroVec 1
    distW := zeroMat 16 1, distb := zeroVec 1
    stabW := zeroMat 16 3, stabb := zeroVec 3 }

/-! ### Basic lemmas about the primitives -/

theorem exists_of_mem_zipWith {α β γ : Type} {f : α → β → γ} {l1 : List α}
    {l2 : List β} {a : γ} (h : a ∈ List.zipWith f l1 l2) :
    ∃ x ∈ l1, ∃ y ∈ l2, a = f x y := by
  induction l1 generalizing l2 with
  | nil => simp at h
  | cons x xs ih =>
    cases l2 with
    | nil => simp at h
    | cons y ys =>
      simp only [List.zipWith_cons_cons, List.mem_cons] at h
      rcases h with h | h
      · exact ⟨x, by simp, y, by simp, h⟩
      · obtain ⟨a1, ha1, b1, hb1, hE⟩ := ih h
        exact ⟨a1, by simp [ha1], b1, by simp [hb1], hE⟩

theorem zeroVec_length (n : Nat) : (zeroVec n).length = n := by
  simp [zeroVec]

theorem mem_zeroVec {n : Nat} {a : ℝ} (h : a ∈ zeroVec n) : a = 0 :=
  List.eq_of_mem_replicate h

theorem vecAdd_length (u v : List ℝ) : (vecAdd u v).length = min u.length v.length := by
  simp [vecAdd]

theorem vecSub_length (u v : List ℝ) : (vecSub u v).length = min u.length v.length := by
  simp [vecSub]

theorem vecScale_length (c : ℝ) (v : List ℝ) : (vecScale c v).length = v.length := by
  simp [vecScale]

theorem vecAdd_zeroVec_zeroVec (n : Nat) : vecAdd (zeroVec n) (zeroVec n) = zeroVec n := by
  induction n with
  | zero => rfl
  | succ k ih =>
    simp only [zeroVec, List.replicate_succ] at ih ⊢
    simp [vecAdd]

theorem vecScale_zeroVec (c : ℝ) (n : Nat) : vecScale c (zeroVec n) = zeroVec n := by
  simp [vecScale, zeroVec, List.map_replicate]

theorem vecScale_zero (v : List ℝ) : vecScale 0 v = zeroVec v.length := by
  simp [vecScale, zeroVec, List.map_eq_replicate_iff]

theorem foldr_vecAdd_length {l : List (List ℝ)} {w : Nat}
    (h : ∀ v ∈ l, v.length = w) :
    (l.foldr vecAdd (zeroVec w)).length = w := by
  induction l with
  | nil => exact zeroVec_length w
  | cons u us ih =>
    have hu : u.length = w := h u (by simp)
    have hrest := ih (fun v hv => h v (by simp [hv]))
    simp [List.foldr_cons, vecAdd_length, hu, hrest]

theorem foldr_vecAdd_zero {l : List (List ℝ)} {w : Nat}
    (h : ∀ v ∈ l, v = zeroVec w) :
    l.foldr vecAdd (zeroVec w) = zeroVec w := by
  induction l with
  | nil => rfl
  | cons u us ih =>
    have hu : u = zeroVec w := h u (by simp)
    have hrest := ih (fun v hv => h v (by simp [hv]))
    simp [List.foldr_cons, hrest, hu, vecAdd_zeroVec_zeroVec]

theorem rowMat_length {w : Nat} {row : List ℝ} {W : List (List ℝ)}
    (hW : ∀ r ∈ W, r.length = w) :
    (rowMat w row W).length = w := by
  unfold rowMat
  refine foldr_vecAdd_length (fun v hv => ?_)
  obtain ⟨a, _, r, hr, hE⟩ := exists_of_mem_zipWith hv
  simp [hE, vecScale_length, hW r hr]

theorem denseRow_length {w : Nat} {W : List (List ℝ)} {b row : List ℝ}
    (hW : ∀ r ∈ W, r.length = w) (hb : b.length = w) :
    (denseRow w W b row).length = w := by
  simp [denseRow, vecAdd_length, rowMat_length hW, hb]

/-- A zero input row through any well-shaped weight matrix gives zero. -/
theorem rowMat_zero_input {w k : Nat} {W : List (List ℝ)}
    (hW : ∀ r ∈ W, r.length = w) :
    rowMat w (zeroVec k) W = zeroVec w := by
  unfold rowMat
  refine foldr_vecAdd_zero (fun v hv => ?_)
  obtain ⟨a, ha, r, hr, hE⟩ := exists_of_mem_zipWith hv
  rw [hE, mem_zeroVec ha, vecScale_zero, hW r hr]

/-- A zero input row through a dense layer with zero bias gives zero. -/
theorem denseRow_zero_input {w k : Nat} {W : List (List ℝ)} {b : List ℝ}
    (hW : ∀ r ∈ W, r.length = w) (hb : b = zeroVec w) :
    denseRow w W b (zeroVec k) = zeroVec w := by
  simp [denseRow, rowMat_zero_input hW, hb, vecAdd_zeroVec_zeroVec]

theorem reluR_zero : reluR 0 = 0 := by simp [reluR]

theorem map_reluR_zeroVec (n : Nat) : (zeroVec n).map reluR = zeroVec n := by
  simp [zeroVec, List.map_replicate, reluR_zero]

theorem reluDeriv_zero : reluDeriv 0 = 0 := by simp [reluDeriv]

theorem sigOk_iff {d : Nat} {m : List (List ℝ)} :
    sigOk d m = true ↔ ∀ r ∈ m, r.length = d := by
  simp [sigOk]

theorem trainableModel_wf_spec {p : TrainableModel} (hp : p.wf = true) :
    p.w1.length = 102 ∧ (∀ r ∈ p.w1, r.length = 64) ∧ p.b1.length = 64 ∧
    p.w2.length = 64 ∧ (∀ r ∈ p.w2, r.length = 64) ∧ p.b2.length = 64 ∧
    p.w3.length = 64 ∧ (∀ r ∈ p.w3, r.length = 32) ∧ p.b3.length = 32 ∧
    p.w4.length = 32 ∧ (∀ r ∈ p.w4, r.length = 2) ∧ p.b4.length = 2 := by
  simp only [TrainableModel.wf, Bool.and_eq_true, beq_iff_eq, List.all_eq_true] at hp
  tauto

theorem singleDay_wf_spec {p : SingleDayModel} (hp : p.wf = true) :
    p.w1.length = 10 ∧ (∀ r ∈ p.w1, r.length = 32) ∧ p.b1.length = 32 ∧
    p.w2.length = 32 ∧ (∀ r ∈ p.w2, r.length = 16) ∧ p.b2.length = 16 ∧
    p.w3.length = 16 ∧ (∀ r ∈ p.w3, r.length = 1) ∧ p.b3.length = 1 := by
  simp only [SingleDayModel.wf, Bool.and_eq_true, beq_iff_eq, List.all_eq_true] at hp
  tauto

theorem behavior_wf_spec {q : BehaviorModel} (hq : q.wf = true) :
    q.enc1W.length = 10 ∧ (∀ r ∈ q.enc1W, r.length = 32) ∧ q.enc1b.length = 32 ∧
    q.enc2W.length = 32 ∧ (∀ r ∈ q.enc2W, r.length = 24) ∧ q.enc2b.length = 24 ∧
    q.latW.length = 24 ∧ (∀ r ∈ q.latW, r.length = 16) ∧ q.latb.length = 16 ∧
    q.habitW.length = 16 ∧ (∀ r ∈ q.habitW, r.length = 1) ∧ q.habitb.length = 1 ∧
    q.distW.length = 16 ∧ (∀ r ∈ q.distW, r.length = 1) ∧ q.distb.length = 1 ∧
    q.stabW.length = 16 ∧ (∀ r ∈ q.stabW, r.length = 3) ∧ q.stabb.length = 3 := by
  simp only [BehaviorModel.wf, Bool.and_eq_true, beq_iff_eq, List.all_eq_true] at hq
  tauto

/-! ### Sigmoid lemmas -/

theorem sigmoidR_pos (a : ℝ) : 0 < sigmoidR a := by
  unfold sigmoidR
  positivity

theorem sigmoidR_lt_one (a : ℝ) : sigmoidR a < 1 := by
  unfold sigmoidR
  rw [div_lt_one (by positivity)]
  linarith [Real.exp_pos (-a)]

theorem sigmoidR_zero_eq : sigmoidR 0 = 1 / 2 := by
  unfold sigmoidR
  norm_num

theorem half_lt_sigmoidR {a : ℝ} (h : 0 < a) : 1 / 2 < sigmoidR a := by
  unfold sigmoidR
  have hlt : Real.exp (-a) < 1 := by
    rw [Real.exp_lt_one_iff]
    linarith
  rw [div_lt_div_iff₀ (by norm_num) (by positivity)]
  linarith

/-! ### Forward-pass shape and range lemmas -/

theorem callRow_length {p : TrainableModel} (hp : p.wf = true) (row : List ℝ) :
    (TrainableModel.callRow p row).length = 2 := by
  obtain ⟨_, _, _, _, _, _, _, _, _, _, hw4, hb4⟩ := trainableModel_wf_spec hp
  simp [TrainableModel.callRow, denseRow_length hw4 hb4]

theorem callRow_mem_unit {p : TrainableModel} {row : List ℝ} {v : ℝ}
    (hv : v ∈ TrainableModel.callRow p row) : 0 < v ∧ v < 1 := by
  simp only [TrainableModel.callRow, List.mem_map] at hv
  obtain ⟨z, _, rfl⟩ := hv
  exact ⟨sigmoidR_pos z, sigmoidR_lt_one z⟩

theorem call_length (p : TrainableModel) (x : List (List ℝ)) :
    (TrainableModel.call p x).length = x.length := by
  simp [TrainableModel.call]

/-! ### Loss-denominator lemmas -/

theorem flatten_length_const {m : List (List ℝ)} {k : Nat}
    (h : ∀ r ∈ m, r.length = k) : m.flatten.length = k * m.length := by
  induction m with
  | nil => simp
  | cons r rs ih =>
    have hr : r.length = k := h r (by simp)
    have hrest := ih (fun t ht => h t (by simp [ht]))
    simp only [List.flatten_cons, List.length_append, List.length_cons, hr, hrest]
    ring

theorem sqErr_rows_length {y pred : List (List ℝ)}
    (hy : ∀ r ∈ y, r.length = 2) (hp : ∀ r ∈ pred, r.length = 2) :
    ∀ r ∈ List.zipWith sqErrRow y pred, r.length = 2 := by
  intro r hr
  obtain ⟨yr, hyr, pr, hpr, hE⟩ := exists_of_mem_zipWith hr
  simp [hE, sqErrRow, hy yr hyr, hp pr hpr]

theorem mseLoss_eq_div {y pred : List (List ℝ)}
    (hy : ∀ r ∈ y, r.length = 2) (hp : ∀ r ∈ pred, r.length = 2)
    (hlen : pred.length = y.length) :
    mseLoss y pred =
      ((List.zipWith sqErrRow y pred).flatten).sum / (2 * (y.length : ℝ)) := by
  have hflat : (List.zipWith sqErrRow y pred).flatten.length = 2 * y.length := by
    rw [flatten_length_const (sqErr_rows_length hy hp)]
    simp [hlen]
  show (List.zipWith sqErrRow y pred).flatten.sum /
      ((List.zipWith sqErrRow y pred).flatten.length : ℝ) = _
  rw [hflat]
  push_cast
  ring_nf

/-! ### Softmax lemmas -/

theorem softmax_length (v : List ℝ) : (softmax v).length = v.length := by
  simp [softmax]

theorem softmax_nonneg {v : List ℝ} {a : ℝ} (ha : a ∈ softmax v) : 0 ≤ a := by
  simp only [softmax, List.mem_map] at ha
  obtain ⟨e, ⟨z, _, rfl⟩, rfl⟩ := ha
  have hs : 0 ≤ ((v.map Real.exp).sum) := by
    refine List.sum_nonneg (fun b hb => ?_)
    obtain ⟨w, _, rfl⟩ := List.mem_map.mp hb
    exact (Real.exp_pos w).le
  positivity

/-- A width-1 dense layer followed by sigmoid yields a single value
strictly in (0,1). -/
theorem denseRow_sigmoid_unit {W : List (List ℝ)} {b row : List ℝ}
    (hW : ∀ r ∈ W, r.length = 1) (hb : b.length = 1) :
    ∃ a, (denseRow 1 W b row).map sigmoidR = [a] ∧ 0 < a ∧ a < 1 := by
  have h1 : (denseRow 1 W b row).length = 1 := denseRow_length hW hb
  obtain ⟨z, hz⟩ := List.length_eq_one.mp h1
  exact ⟨sigmoidR z, by rw [hz]; rfl, sigmoidR_pos z, sigmoidR_lt_one z⟩

theorem softmax_sum {v : List ℝ} (hv : v ≠ []) : (softmax v).sum = 1 := by
  have hpos : 0 < (v.map Real.exp).sum := by
    refine List.sum_pos _ (fun b hb => ?_) (by simpa using hv)
    obtain ⟨w, _, rfl⟩ := List.mem_map.mp hb
    exact Real.exp_pos w
  simp only [softmax, div_eq_mul_inv]
  rw [List.sum_map_mul_right, List.map_id', mul_inv_cancel₀ (ne_of_gt hpos)]

/-! ### Zero-propagation lemmas -/

theorem zipWith_mul_zeroVec {v : List ℝ} {n : Nat} (h : v.length = n) :
    List.zipWith (· * ·) v (zeroVec n) = zeroVec n := by
  induction v generalizing n with
  | nil => subst h; rfl
  | cons a as ih =>
    subst h
    have htail := ih (n := as.length) rfl
    simp only [zeroVec, List.length_cons, List.replicate_succ,
      List.zipWith_cons_cons, mul_zero] at htail ⊢
    rw [htail]

theorem dot_zeroVec_left (n : Nat) (v : List ℝ) : dot (zeroVec n) v = 0 := by
  unfold dot
  induction n generalizing v with
  | zero => rfl
  | succ k ih =>
    cases v with
    | nil => simp
    | cons b bs =>
      simp only [zeroVec, List.replicate_succ, List.zipWith_cons_cons,
        List.sum_cons, zero_mul, zero_add]
      exact ih bs

theorem matVec_zeroVec (W : List (List ℝ)) (n : Nat) :
    matVec W (zeroVec n) = zeroVec W.length := by
  unfold matVec
  rw [show (fun wrow => dot (zeroVec n) wrow) = fun _ : List ℝ => (0 : ℝ) from
    funext (fun w => dot_zeroVec_left n w)]
  simp [zeroVec, List.map_const]

theorem vecSub_self_zeroVec {v : List ℝ} {n : Nat} (h : v.length = n) :
    vecSub v (zeroVec n) = v := by
  induction v generalizing n with
  | nil => subst h; rfl
  | cons a as ih =>
    subst h
    have htail := ih (n := as.length) rfl
    simp only [zeroVec, List.length_cons, List.replicate_succ] at htail ⊢
    simp only [vecSub, List.zipWith_cons_cons, sub_zero] at htail ⊢
    rw [htail]

theorem matScale_zeroMat (c : ℝ) (r k : Nat) :
    matScale c (zeroMat r k) = zeroMat r k := by
  simp [matScale, zeroMat, List.map_replicate, vecScale_zeroVec]

theorem matSub_self_zeroMat {A : List (List ℝ)} {r c : Nat}
    (hlen : A.length = r) (hrows : ∀ row ∈ A, row.length = c) :
    matSub A (zeroMat r c) = A := by
  induction A generalizing r with
  | nil => subst hlen; rfl
  | cons a as ih =>
    subst hlen
    have htail := ih rfl (fun row hrow => hrows row (by simp [hrow]))
    simp only [zeroMat, List.length_cons, List.replicate_succ] at htail ⊢
    simp only [matSub, List.zipWith_cons_cons] at htail ⊢
    rw [htail, vecSub_self_zeroVec (hrows a (by simp))]

theorem outer_zeroVec_left (n : Nat) (v : List ℝ) :
    outer (zeroVec n) v = zeroMat n v.length := by
  simp [outer, zeroVec, zeroMat, List.map_replicate, vecScale_zero]

theorem matAdd_zeroMat_zeroMat (r c : Nat) :
    matAdd (zeroMat r c) (zeroMat r c) = zeroMat r c := by
  induction r with
  | zero => rfl
  | succ k ih =>
    simp only [zeroMat, List.replicate_succ] at ih ⊢
    simp only [matAdd, List.zipWith_cons_cons] at ih ⊢
    rw [ih, vecAdd_zeroVec_zeroVec]

theorem map_reluDeriv_zeroVec (n : Nat) :
    (zeroVec n).map reluDeriv = zeroVec n := by
  simp [zeroVec, List.map_replicate, reluDeriv_zero]

theorem matVec_length (W : List (List ℝ)) (d : List ℝ) :
    (matVec W d).length = W.length := by
  simp [matVec]

theorem vecAdd_singleton_zeroVec (c : ℝ) : vecAdd [c] (zeroVec 1) = [c] := by
  simp [vecAdd, zeroVec]

theorem map_sigmoidR_zeroVec1 : (zeroVec 1).map sigmoidR = [sigmoidR 0] := by
  simp [zeroVec]

/-! ### The single-day training step at the zero input -/

/-- With zero biases, the single-day forward pass on the all-zero input row
is exactly `[sigmoid 0]`, for any weight values of the right shapes. -/
theorem singleDay_callRow_zero {p : SingleDayModel} (hp : p.wf = true)
    (hb1 : p.b1 = zeroVec 32) (hb2 : p.b2 = zeroVec 16)
    (hb3 : p.b3 = zeroVec 1) :
    SingleDayModel.callRow p (zeroVec 10) = [sigmoidR 0] := by
  obtain ⟨_, hW1, _, _, hW2, _, _, hW3, _⟩ := singleDay_wf_spec hp
  simp only [SingleDayModel.callRow, denseRow_zero_input hW1 hb1,
    map_reluR_zeroVec, denseRow_zero_input hW2 hb2,
    denseRow_zero_input hW3 hb3, map_sigmoidR_zeroVec1]

/-- With zero biases, the tape gradient of the single-day model at
`x = [0,…,0]`, `y = [[1]]` is zero everywhere except the output bias,
whose gradient is `2·(σ(0)−1)·σ(0)·(1−σ(0)) = −1/4`. -/
theorem singleDay_gradLoss_zero {p : SingleDayModel} (hp : p.wf = true)
    (hb1 : p.b1 = zeroVec 32) (hb2 : p.b2 = zeroVec 16)
    (hb3 : p.b3 = zeroVec 1) :
    SingleDayModel.gradLoss p [zeroVec 10] [[1]] =
      { w1 := zeroMat 10 32, b1 := zeroVec 32
        w2 := zeroMat 32 16, b2 := zeroVec 16
        w3 := zeroMat 16 1, b3 := [-(1 / 4)] } := by
  obtain ⟨hl1, hW1, _, hl2, hW2, _, hl3, hW3, _⟩ := singleDay_wf_spec hp
  simp only [SingleDayModel.gradLoss, List.map_cons, List.map_nil,
    denseRow_zero_input hW1 hb1, map_reluR_zeroVec,
    denseRow_zero_input hW2 hb2, denseRow_zero_input hW3 hb3,
    map_sigmoidR_zeroVec1, sqErrRow, List.zipWith_cons_cons,
    List.zipWith_nil_right, List.zipWith_nil_left, List.flatten_cons,
    List.flatten_nil, List.append_nil, List.length_cons, List.length_nil,
    Nat.cast_one, Nat.cast_zero, matScale, matSub, vecSub, vecScale,
    hadamard, matVec_zeroVec, matVec_length, hl2, hl3,
    map_reluDeriv_zeroVec, zipWith_mul_zeroVec, zeroVec_length,
    gramT, outer_zeroVec_left, matAdd_zeroMat_zeroMat, colSum,
    List.foldr_cons, List.foldr_nil, vecAdd_zeroVec_zeroVec,
    vecAdd_singleton_zeroVec, SingleDayModel.mk.injEq]
  norm_num [sigmoidR_zero_eq]

/-- With zero biases except an output bias `[c]`, the single-day forward
pass on the all-zero row is `[sigmoid c]`. -/
theorem singleDay_callRow_zero_bias3 {p : SingleDayModel}
    (hW1 : ∀ r ∈ p.w1, r.length = 32) (hb1 : p.b1 = zeroVec 32)
    (hW2 : ∀ r ∈ p.w2, r.length = 16) (hb2 : p.b2 = zeroVec 16)
    (hW3 : ∀ r ∈ p.w3, r.length = 1) {c : ℝ} (hb3 : p.b3 = [c]) :
    SingleDayModel.callRow p (zeroVec 10) = [sigmoidR c] := by
  simp only [SingleDayModel.callRow, denseRow_zero_input hW1 hb1,
    map_reluR_zeroVec, denseRow_zero_input hW2 hb2]
  unfold denseRow
  rw [rowMat_zero_input hW3, hb3]
  simp [vecAdd, zeroVec]

/-- The single-day ParameterSet after one `train` call on the zero row
with target `[[1]]`: only the output bias moves, by `−0.01·(−1/4)`. -/
theorem singleDay_post_update {p : SingleDayModel} (hp : p.wf = true)
    (hb1 : p.b1 = zeroVec 32) (hb2 : p.b2 = zeroVec 16)
    (hb3 : p.b3 = zeroVec 1) :
    (SingleDayModel.train p [zeroVec 10] [[1]]).2 =
      { w1 := p.w1, b1 := zeroVec 32
        w2 := p.w2, b2 := zeroVec 16
        w3 := p.w3, b3 := [1 / 400] } := by
  obtain ⟨hl1, hW1, _, hl2, hW2, _, hl3, hW3, _⟩ := singleDay_wf_spec hp
  have h2 : (SingleDayModel.train p [zeroVec 10] [[1]]).2 =
      SingleDayModel.applyUpdate SingleDayModel.learning_rate p
        (SingleDayModel.gradLoss p [zeroVec 10] [[1]]) := by
    simp [SingleDayModel.train, sigOk, zeroVec]
  rw [h2, singleDay_gradLoss_zero hp hb1 hb2 hb3]
  unfold SingleDayModel.applyUpdate SingleDayModel.learning_rate
  simp only [SingleDayModel.mk.injEq]
  refine ⟨?_, ?_, ?_, ?_, ?_, ?_⟩
  · rw [matScale_zeroMat, matSub_self_zeroMat hl1 hW1]
  · rw [hb1, vecScale_zeroVec, vecSub_self_zeroVec (zeroVec_length 32)]
  · rw [matScale_zeroMat, matSub_self_zeroMat hl2 hW2]
  · rw [hb2, vecScale_zeroVec, vecSub_self_zeroVec (zeroVec_length 16)]
  · rw [matScale_zeroMat, matSub_self_zeroMat hl3 hW3]
  · rw [hb3]
    simp [vecSub, vecScale, zeroVec]
    norm_num

/-- C3: For every InputBatch `x` of shape [batch, 102], the Forward
Evaluator (`TrainableModel.__call__`, embedded as `TrainableModel.call`:
affine transform followed by ReLU for each of the first three layers, a
final affine transform followed by sigmoid) computes an output batch of
shape [batch, 2], and every entry of the result lies strictly in the open
interval (0, 1). -/
theorem C3_forward_shape_and_range (p : TrainableModel) (x : List (List ℝ))
    (hp : p.wf = true) (_hx : sigOk 102 x = true) :
    (TrainableModel.call p x).length = x.length ∧
    ∀ row ∈ TrainableModel.call p x,
      row.length = 2 ∧ ∀ v ∈ row, 0 < v ∧ v < 1 := by
  refine ⟨call_length p x, fun row hrow => ?_⟩
  simp only [TrainableModel.call, List.mem_map] at hrow
  obtain ⟨r, _, rfl⟩ := hrow
  exact ⟨callRow_length hp r, fun v hv => callRow_mem_unit hv⟩

/-- C3 witness: the theorem evaluated at the all-zero ParameterSet and a
single all-zero input row. -/
theorem C3_forward_shape_and_range_witness :
    zeroModel.wf = true ∧ sigOk 102 [zeroVec 102] = true ∧
    ((TrainableModel.call zeroModel [zeroVec 102]).length = 1 ∧
     ∀ row ∈ TrainableModel.call zeroModel [zeroVec 102],
       row.length = 2 ∧ ∀ v ∈ row, 0 < v ∧ v < 1) := by
  have hp : zeroModel.wf = true := by
    simp [TrainableModel.wf, zeroModel, zeroMat, zeroVec]
  have hx : sigOk 102 [zeroVec 102] = true := by
    simp [sigOk, zeroVec]
  exact ⟨hp, hx, C3_forward_shape_and_range zeroModel [zeroVec 102] hp hx⟩

/-- C8: For every InputBatch `x` of shape [batch, 102], `infer` returns
exactly the Forward Evaluator's output on `x` (`{"output": self(x)}`)
and leaves the ParameterSet unchanged (the post-state of the embedded
state-passing `infer` is the input state; no gradient computation
appears in its definition). -/
theorem C8_infer_readonly (p : TrainableModel) (x : List (List ℝ))
    (hx : sigOk 102 x = true) :
    (TrainableModel.infer p x).1 = Except.ok (TrainableModel.call p x) ∧
    (TrainableModel.infer p x).2 = p := by
  simp [TrainableModel.infer, hx]

/-- C8 witness: `infer` on the all-zero model and one all-zero row. -/
theorem C8_infer_readonly_witness :
    sigOk 102 [zeroVec 102] = true ∧
    ((TrainableModel.infer zeroModel [zeroVec 102]).1 =
      Except.ok (TrainableModel.call zeroModel [zeroVec 102]) ∧
     (TrainableModel.infer zeroModel [zeroVec 102]).2 = zeroModel) := by
  have hx : sigOk 102 [zeroVec 102] = true := by simp [sigOk, zeroVec]
  exact ⟨hx, C8_infer_readonly zeroModel [zeroVec 102] hx⟩

/-- C7: `save()` returns exactly 8 named tensors, named and ordered
`w1, b1, w2, b2, w3, b3, w4, b4`, with shapes [102,64], [64], [64,64],
[64], [64,32], [32], [32,2], [2], and the values are exactly the current
ParameterSet tensors.  The embedded `save` is a pure function of the
ParameterSet, so the call mutates nothing by construction. -/
theorem C7_save_eight_named_tensors (p : TrainableModel) (hp : p.wf = true) :
    (TrainableModel.save p).length = 8 ∧
    (TrainableModel.save p).map Prod.fst =
      ["w1", "b1", "w2", "b2", "w3", "b3", "w4", "b4"] ∧
    TrainableModel.save p =
      [("w1", TrainableModel.Tensor.mat p.w1), ("b1", TrainableModel.Tensor.vec p.b1),
       ("w2", TrainableModel.Tensor.mat p.w2), ("b2", TrainableModel.Tensor.vec p.b2),
       ("w3", TrainableModel.Tensor.mat p.w3), ("b3", TrainableModel.Tensor.vec p.b3),
       ("w4", TrainableModel.Tensor.mat p.w4), ("b4", TrainableModel.Tensor.vec p.b4)] ∧
    TrainableModel.Tensor.hasShape (TrainableModel.Tensor.mat p.w1) [102, 64] ∧
    TrainableModel.Tensor.hasShape (TrainableModel.Tensor.vec p.b1) [64] ∧
    TrainableModel.Tensor.hasShape (TrainableModel.Tensor.mat p.w2) [64, 64] ∧
    TrainableModel.Tensor.hasShape (TrainableModel.Tensor.vec p.b2) [64] ∧
    TrainableModel.Tensor.hasShape (TrainableModel.Tensor.mat p.w3) [64, 32] ∧
    TrainableModel.Tensor.hasShape (TrainableModel.Tensor.vec p.b3) [32] ∧
    TrainableModel.Tensor.hasShape (TrainableModel.Tensor.mat p.w4) [32, 2] ∧
    TrainableModel.Tensor.hasShape (TrainableModel.Tensor.vec p.b4) [2] := by
  obtain ⟨h1, h2, h3, h4, h5, h6, h7, h8, h9, h10, h11, h12⟩ :=
    trainableModel_wf_spec hp
  exact ⟨rfl, rfl, rfl, ⟨h1, h2⟩, h3, ⟨h4, h5⟩, h6, ⟨h7, h8⟩, h9, ⟨h10, h11⟩, h12⟩

/-- C7 witness: `save` on the all-zero ParameterSet. -/
theorem C7_save_eight_named_tensors_witness :
    zeroModel.wf = true ∧ (TrainableModel.save zeroModel).length = 8 := by
  have hp : zeroModel.wf = true := by
    simp [TrainableModel.wf, zeroModel, zeroMat, zeroVec]
  exact ⟨hp, (C7_save_eight_named_tensors zeroModel hp).1⟩

/-- C4: For every valid (x, y), the result returned by `train(x, y)` is
computed from the ParameterSet as it was BEFORE the SGD update of the same
call: the returned prediction is the forward pass under the pre-call
parameters `p`, and the returned loss is the MSE of that pre-call
prediction. -/
theorem C4_result_is_pre_update (p : TrainableModel) (x y : List (List ℝ))
    (hx : sigOk 102 x = true) (hy : sigOk 2 y = true)
    (hb : x.length = y.length) :
    (TrainableModel.train p x y).1 =
      Except.ok { loss := mseLoss y (TrainableModel.call p x),
                  prediction := TrainableModel.call p x } := by
  simp [TrainableModel.train, hx, hy, hb]

/-- C4 witness: one valid call on the all-zero model with batch size 1. -/
theorem C4_result_is_pre_update_witness :
    sigOk 102 [zeroVec 102] = true ∧ sigOk 2 [[(0 : ℝ), 0]] = true ∧
    [zeroVec 102].length = [[(0 : ℝ), 0]].length ∧
    (TrainableModel.train zeroModel [zeroVec 102] [[(0 : ℝ), 0]]).1 =
      Except.ok { loss := mseLoss [[(0 : ℝ), 0]]
                    (TrainableModel.call zeroModel [zeroVec 102]),
                  prediction := TrainableModel.call zeroModel [zeroVec 102] } := by
  have hx : sigOk 102 [zeroVec 102] = true := by simp [sigOk, zeroVec]
  have hy : sigOk 2 [[(0 : ℝ), 0]] = true := by simp [sigOk]
  have hb : [zeroVec 102].length = [[(0 : ℝ), 0]].length := rfl
  exact ⟨hx, hy, hb, C4_result_is_pre_update zeroModel _ _ hx hy hb⟩

/-- C2: For every InputBatch `x` of shape [batch, 102] and TargetBatch `y`
of shape [batch, 2] with equal batch size, the loss returned by
`train(x, y)` equals the mean over all batch × output-dimension entries of
(target − prediction)², where the prediction is the Forward Evaluator's
output on `x`: the sum of all `2 · batch` squared errors divided by
`2 · batch`. -/
theorem C2_loss_is_mean_squared_error (p : TrainableModel)
    (x y : List (List ℝ)) (hp : p.wf = true) (hx : sigOk 102 x = true)
    (hy : sigOk 2 y = true) (hb : x.length = y.length) :
    ∃ r, (TrainableModel.train p x y).1 = Except.ok r ∧
      r.prediction = TrainableModel.call p x ∧
      r.loss =
        ((List.zipWith sqErrRow y (TrainableModel.call p x)).flatten).sum /
          (2 * (y.length : ℝ)) := by
  have h1 : (TrainableModel.train p x y).1 =
      Except.ok { loss := mseLoss y (TrainableModel.call p x),
                  prediction := TrainableModel.call p x } := by
    simp [TrainableModel.train, hx, hy, hb]
  refine ⟨_, h1, rfl, ?_⟩
  have hyrows : ∀ r ∈ y, r.length = 2 := sigOk_iff.mp hy
  have hprows : ∀ r ∈ TrainableModel.call p x, r.length = 2 := by
    intro r hr
    simp only [TrainableModel.call, List.mem_map] at hr
    obtain ⟨t, _, rfl⟩ := hr
    exact callRow_length hp t
  have hlen : (TrainableModel.call p x).length = y.length := by
    rw [call_length, hb]
  exact mseLoss_eq_div hyrows hprows hlen

/-- C2 witness: one valid call on the all-zero model with batch size 1. -/
theorem C2_loss_is_mean_squared_error_witness :
    zeroModel.wf = true ∧ sigOk 102 [zeroVec 102] = true ∧
    sigOk 2 [[(0 : ℝ), 0]] = true ∧
    [zeroVec 102].length = [[(0 : ℝ), 0]].length ∧
    ∃ r, (TrainableModel.train zeroModel [zeroVec 102] [[(0 : ℝ), 0]]).1 =
        Except.ok r ∧
      r.prediction = TrainableModel.call zeroModel [zeroVec 102] ∧
      r.loss =
        ((List.zipWith sqErrRow [[(0 : ℝ), 0]]
          (TrainableModel.call zeroModel [zeroVec 102])).flatten).sum /
          (2 * (([[(0 : ℝ), 0]] : List (List ℝ)).length : ℝ)) := by
  have hp : zeroModel.wf = true := by
    simp [TrainableModel.wf, zeroModel, zeroMat, zeroVec]
  have hx : sigOk 102 [zeroVec 102] = true := by simp [sigOk, zeroVec]
  have hy : sigOk 2 [[(0 : ℝ), 0]] = true := by simp [sigOk]
  have hb : [zeroVec 102].length = [[(0 : ℝ), 0]].length := rfl
  exact ⟨hp, hx, hy, hb,
    C2_loss_is_mean_squared_error zeroModel _ _ hp hx hy hb⟩

/-- C6: Calling `train(x, y)` with `y` of the wrong output dimension
(some row's length ≠ 2) or `x` of the wrong feature dimension (some row's
length ≠ 102) fails with a ShapeError (the `tf.function` input signature
rejects the call before the body runs), and the ParameterSet — hence the
`save()` output — is unchanged. -/
theorem C6_wrong_dims_shape_error (p : TrainableModel) (x y : List (List ℝ))
    (h : (∃ r ∈ x, r.length ≠ 102) ∨ (∃ r ∈ y, r.length ≠ 2)) :
    TrainableModel.train p x y = (Except.error TrainError.shapeError, p) ∧
    TrainableModel.save (TrainableModel.train p x y).2 =
      TrainableModel.save p := by
  have hcond : (sigOk 102 x && sigOk 2 y && (x.length == y.length)) = false := by
    rcases h with ⟨r, hr, hne⟩ | ⟨r, hr, hne⟩
    · have hxf : sigOk 102 x = false := by
        rw [Bool.eq_false_iff]
        intro hall
        exact hne (sigOk_iff.mp hall r hr)
      simp [hxf]
    · have hyf : sigOk 2 y = false := by
        rw [Bool.eq_false_iff]
        intro hall
        exact hne (sigOk_iff.mp hall r hr)
      simp [hyf]
  have htrain : TrainableModel.train p x y =
      (Except.error TrainError.shapeError, p) := by
    simp [TrainableModel.train, hcond]
  exact ⟨htrain, by rw [htrain]⟩

/-- C6 witness: `x` with a row of length 1 leaves the all-zero model's
`save()` output unchanged and yields a ShapeError. -/
theorem C6_wrong_dims_shape_error_witness :
    ((∃ r ∈ [[(0 : ℝ)]], r.length ≠ 102) ∨
     (∃ r ∈ ([[(0 : ℝ), 0]] : List (List ℝ)), r.length ≠ 2)) ∧
    (TrainableModel.train zeroModel [[(0 : ℝ)]] [[(0 : ℝ), 0]] =
      (Except.error TrainError.shapeError, zeroModel) ∧
     TrainableModel.save
        (TrainableModel.train zeroModel [[(0 : ℝ)]] [[(0 : ℝ), 0]]).2 =
       TrainableModel.save zeroModel) := by
  have h : (∃ r ∈ [[(0 : ℝ)]], r.length ≠ 102) ∨
      (∃ r ∈ ([[(0 : ℝ), 0]] : List (List ℝ)), r.length ≠ 2) := by
    left
    exact ⟨[0], by simp, by simp⟩
  exact ⟨h, C6_wrong_dims_shape_error zeroModel _ _ h⟩

/-- C1: For every parameter tensor of the windowed `TrainableModel` and
every valid training pair, one `train(x, y)` call updates each tensor to
exactly `tensor − 0.01 × (gradient of the MSE loss at the pre-call
parameters)`, and this SGD step is applied exactly once per call: the
state after any sequence of calls followed by one more `train(x, y)` is
the state after the sequence with exactly one further update applied
(`save()` after N calls equals `save()` after N−1 calls plus one more
applied update). -/
theorem C1_sgd_update_exactly_once (p : TrainableModel) (x y : List (List ℝ))
    (hx : sigOk 102 x = true) (hy : sigOk 2 y = true)
    (hb : x.length = y.length) :
    ((TrainableModel.train p x y).2.w1 =
        matSub p.w1 (matScale 0.01 (TrainableModel.gradLoss p x y).w1) ∧
     (TrainableModel.train p x y).2.b1 =
        vecSub p.b1 (vecScale 0.01 (TrainableModel.gradLoss p x y).b1) ∧
     (TrainableModel.train p x y).2.w2 =
        matSub p.w2 (matScale 0.01 (TrainableModel.gradLoss p x y).w2) ∧
     (TrainableModel.train p x y).2.b2 =
        vecSub p.b2 (vecScale 0.01 (TrainableModel.gradLoss p x y).b2) ∧
     (TrainableModel.train p x y).2.w3 =
        matSub p.w3 (matScale 0.01 (TrainableModel.gradLoss p x y).w3) ∧
     (TrainableModel.train p x y).2.b3 =
        vecSub p.b3 (vecScale 0.01 (TrainableModel.gradLoss p x y).b3) ∧
     (TrainableModel.train p x y).2.w4 =
        matSub p.w4 (matScale 0.01 (TrainableModel.gradLoss p x y).w4) ∧
     (TrainableModel.train p x y).2.b4 =
        vecSub p.b4 (vecScale 0.01 (TrainableModel.gradLoss p x y).b4)) ∧
    (∀ calls, TrainableModel.trainSeq p (calls ++ [(x, y)]) =
        (TrainableModel.train (TrainableModel.trainSeq p calls) x y).2) ∧
    (∀ calls,
        TrainableModel.save (TrainableModel.trainSeq p (calls ++ [(x, y)])) =
          TrainableModel.save (TrainableModel.applyUpdate 0.01
            (TrainableModel.trainSeq p calls)
            (TrainableModel.gradLoss (TrainableModel.trainSeq p calls) x y))) := by
  have hstep : ∀ q : TrainableModel, (TrainableModel.train q x y).2 =
      TrainableModel.applyUpdate 0.01 q (TrainableModel.gradLoss q x y) := by
    intro q
    simp [TrainableModel.train, hx, hy, hb, TrainableModel.learning_rate]
  have hseq : ∀ calls, TrainableModel.trainSeq p (calls ++ [(x, y)]) =
      (TrainableModel.train (TrainableModel.trainSeq p calls) x y).2 := by
    intro calls
    simp [TrainableModel.trainSeq, List.foldl_append]
  refine ⟨?_, hseq, fun calls => ?_⟩
  · rw [hstep p]
    exact ⟨rfl, rfl, rfl, rfl, rfl, rfl, rfl, rfl⟩
  · rw [hseq calls, hstep]

/-- C1 witness: one valid call on the all-zero model, with the
hypotheses discharged concretely. -/
theorem C1_sgd_update_exactly_once_witness :
    sigOk 102 [zeroVec 102] = true ∧ sigOk 2 [[(0 : ℝ), 0]] = true ∧
    [zeroVec 102].length = [[(0 : ℝ), 0]].length ∧
    (TrainableModel.train zeroModel [zeroVec 102] [[(0 : ℝ), 0]]).2.w1 =
      matSub zeroModel.w1 (matScale 0.01
        (TrainableModel.gradLoss zeroModel [zeroVec 102] [[(0 : ℝ), 0]]).w1) := by
  have hx : sigOk 102 [zeroVec 102] = true := by simp [sigOk, zeroVec]
  have hy : sigOk 2 [[(0 : ℝ), 0]] = true := by simp [sigOk]
  have hb : [zeroVec 102].length = [[(0 : ℝ), 0]].length := rfl
  exact ⟨hx, hy, hb,
    (C1_sgd_update_exactly_once zeroModel _ _ hx hy hb).1.1⟩

/-- C5 (code behaviour at the failing input): `train` performs no
batch-size validation.  With batch size 0 (`x : [0,102]`, `y : [0,2]`)
the input-signature check passes vacuously and the call returns ok — in
the embedding the mean of the empty squared-error tensor is `0 / 0 = 0`
(TensorFlow returns NaN there) — instead of failing with
InvalidInputError; batch size 1 is processed by the same code path with
no special-casing. -/
theorem C5_batch_zero_not_rejected (p : TrainableModel) :
    (TrainableModel.train p [] []).1 =
      Except.ok { loss := 0, prediction := [] } ∧
    (∀ e, (TrainableModel.train p [] []).1 ≠ Except.error e) ∧
    ∃ r, (TrainableModel.train p [zeroVec 102] [[(0 : ℝ), 0]]).1 =
      Except.ok r := by
  have h0 : (TrainableModel.train p [] []).1 =
      Except.ok { loss := 0, prediction := [] } := by
    simp [TrainableModel.train, sigOk, TrainableModel.call, mseLoss]
  refine ⟨h0, fun e he => by rw [h0] at he; exact Except.noConfusion he, ?_⟩
  refine ⟨{ loss := mseLoss [[(0 : ℝ), 0]]
              (TrainableModel.call p [zeroVec 102]),
            prediction := TrainableModel.call p [zeroVec 102] }, ?_⟩
  simp [TrainableModel.train, sigOk, zeroVec]

/-- C9: For the single-day trainable variant (10→32→16→1, modelled from
the spec since its file is not under `src/`), with all biases zero at
initialisation (so the pre-activations on the zero input are exactly 0
for any weight values), one `train` call on x = a single row of 10 zeros
and y = [[1.0]] returns loss = (1 − sigmoid 0)² = 0.25, and a subsequent
`infer` on the same x yields a value strictly between 1/2 and 1. -/
theorem C9_single_day_first_training_step (p : SingleDayModel)
    (hp : p.wf = true) (hb1 : p.b1 = zeroVec 32) (hb2 : p.b2 = zeroVec 16)
    (hb3 : p.b3 = zeroVec 1) :
    (∃ r, (SingleDayModel.train p [zeroVec 10] [[1]]).1 = Except.ok r ∧
        r.prediction = [[sigmoidR 0]] ∧
        r.loss = (1 - sigmoidR 0) ^ 2 ∧ r.loss = 1 / 4) ∧
    ∃ v, (SingleDayModel.infer ((SingleDayModel.train p [zeroVec 10] [[1]]).2)
        [zeroVec 10]).1 = Except.ok [[v]] ∧ 1 / 2 < v ∧ v < 1 := by
  obtain ⟨hl1, hW1, _, hl2, hW2, _, hl3, hW3, _⟩ := singleDay_wf_spec hp
  have hcall : SingleDayModel.call p [zeroVec 10] = [[sigmoidR 0]] := by
    simp [SingleDayModel.call, singleDay_callRow_zero hp hb1 hb2 hb3]
  have hfst : (SingleDayModel.train p [zeroVec 10] [[1]]).1 =
      Except.ok { loss := mseLoss [[1]] (SingleDayModel.call p [zeroVec 10]),
                  prediction := SingleDayModel.call p [zeroVec 10] } := by
    simp [SingleDayModel.train, sigOk, zeroVec]
  have hloss : mseLoss [[1]] [[sigmoidR 0]] = (1 - sigmoidR 0) ^ 2 := by
    simp [mseLoss, sqErrRow]
  constructor
  · refine ⟨_, hfst, hcall, ?_, ?_⟩
    · show mseLoss [[1]] (SingleDayModel.call p [zeroVec 10]) = _
      rw [hcall, hloss]
    · show mseLoss [[1]] (SingleDayModel.call p [zeroVec 10]) = _
      rw [hcall, hloss, sigmoidR_zero_eq]
      norm_num
  · rw [singleDay_post_update hp hb1 hb2 hb3]
    have hc : SingleDayModel.callRow
        ({ w1 := p.w1, b1 := zeroVec 32
           w2 := p.w2, b2 := zeroVec 16
           w3 := p.w3, b3 := [1 / 400] } : SingleDayModel) (zeroVec 10) =
        [sigmoidR (1 / 400)] :=
      @singleDay_callRow_zero_bias3
        ({ w1 := p.w1, b1 := zeroVec 32
           w2 := p.w2, b2 := zeroVec 16
           w3 := p.w3, b3 := [1 / 400] } : SingleDayModel)
        hW1 rfl hW2 rfl hW3 (1 / 400) rfl
    refine ⟨sigmoidR (1 / 400), ?_,
      half_lt_sigmoidR (by norm_num), sigmoidR_lt_one _⟩
    have hsig : sigOk 10 [zeroVec 10] = true := by simp [sigOk, zeroVec]
    unfold SingleDayModel.infer
    rw [if_pos hsig]
    show Except.ok (SingleDayModel.call _ [zeroVec 10]) = _
    simp only [SingleDayModel.call, List.map_cons, List.map_nil]
    rw [hc]

/-- C9 witness: the theorem evaluated at the all-zero single-day
ParameterSet. -/
theorem C9_single_day_first_training_step_witness :
    zeroSD.wf = true ∧ zeroSD.b1 = zeroVec 32 ∧ zeroSD.b2 = zeroVec 16 ∧
    zeroSD.b3 = zeroVec 1 ∧
    ∃ v, (SingleDayModel.infer
        ((SingleDayModel.train zeroSD [zeroVec 10] [[1]]).2) [zeroVec 10]).1 =
      Except.ok [[v]] ∧ 1 / 2 < v ∧ v < 1 := by
  have hp : zeroSD.wf = true := by
    simp [SingleDayModel.wf, zeroSD, zeroMat, zeroVec]
  exact ⟨hp, rfl, rfl, rfl,
    (C9_single_day_first_training_step zeroSD hp rfl rfl rfl).2⟩

/-- C10: For every 10-dimensional input row and well-shaped parameter
tensors, the stability head of `create_behavior_model` outputs a
3-element probability distribution (every entry non-negative, entries
summing to 1, via softmax), while the habit and distraction heads each
output a single sigmoid value strictly in (0,1). -/
theorem C10_behavior_heads (q : BehaviorModel) (row : List ℝ)
    (hq : q.wf = true) (_hrow : row.length = 10) :
    (∃ a, (BehaviorModel.forward q row).1 = [a] ∧ 0 < a ∧ a < 1) ∧
    (∃ b, (BehaviorModel.forward q row).2.1 = [b] ∧ 0 < b ∧ b < 1) ∧
    (BehaviorModel.forward q row).2.2.length = 3 ∧
    (∀ v ∈ (BehaviorModel.forward q row).2.2, 0 ≤ v) ∧
    (BehaviorModel.forward q row).2.2.sum = 1 := by
  obtain ⟨_, _, _, _, _, _, _, _, _, _, hWh, hbh, _, hWd, hbd, _, hWs, hbs⟩ :=
    behavior_wf_spec hq
  simp only [BehaviorModel.forward]
  refine ⟨?_, ?_, ?_, ?_, ?_⟩
  · exact denseRow_sigmoid_unit hWh hbh
  · exact denseRow_sigmoid_unit hWd hbd
  · rw [softmax_length]
    exact denseRow_length hWs hbs
  · exact fun v hv => softmax_nonneg hv
  · apply softmax_sum
    intro hnil
    have h := congrArg List.length hnil
    rw [denseRow_length hWs hbs] at h
    simp at h

/-- C10 witness: the theorem evaluated at the all-zero behavior model and
the all-zero feature row. -/
theorem C10_behavior_heads_witness :
    zeroBehavior.wf = true ∧ (zeroVec 10).length = 10 ∧
    (zeroBehavior.forward (zeroVec 10)).2.2.sum = 1 := by
  have hq : zeroBehavior.wf = true := by
    simp [BehaviorModel.wf, zeroBehavior, zeroMat, zeroVec]
  have hrow : (zeroVec 10).length = 10 := zeroVec_length 10
  exact ⟨hq, hrow,
    (C10_behavior_heads zeroBehavior (zeroVec 10) hq hrow).2.2.2.2⟩
